import Mathlib

/-!
Shallow embedding of the camera animation subsystem (src/ui/camera.js), the
geographic coordinate type (LngLat, bundled in src/data/load_geometry.js), and
the pooled background-worker dispatcher (src/unnamed/part_003,
js/pooled_worker/worker_index.js) of this mapbox-gl-js fork, together with
theorems settling the specification claims about them.

JavaScript numbers are modelled as real numbers ℝ (floating-point rounding is
out of scope); where NaN matters (LngLat construction) a number is `Option ℝ`
with `none` playing NaN.  Event data objects are opaque and modelled as ℕ tags.
Code whose source file is absent from the snapshot (util/util.js helpers,
geo/transform.js projection math, util/browser.js timing, util/evented.js) is
either taken as an abstract parameter or modelled from the spec; each such
definition says so in its doc comment.
-/

namespace MapboxGL

/-- Lifecycle event names fired by the Camera (src/ui/camera.js). -/
inductive EvName
  | movestart | move | moveend
  | zoomstart | zoom | zoomend
  | rotate
  | pitchstart | pitch | pitchend
  deriving DecidableEq, Repr

/-- A fired event: its name and the caller-supplied eventData (opaque tag). -/
structure Event where
  name : EvName
  data : ℕ
  deriving DecidableEq, Repr

/-- Modelled from the spec: `util.wrap(n, -180, 180)` (util/util.js is not in
the snapshot).  Wraps a degree value into the half-open interval [-180, 180). -/
noncomputable def wrapDeg (n : ℝ) : ℝ :=
  n - 360 * ⌊(n + 180) / 360⌋

/-- Camera#_normalizeBearing (src/ui/camera.js lines 856-862): wraps the target
bearing and then shifts it by ±360 towards the current bearing when that makes
it numerically closer.  The second `if` reads the bearing already updated by
the first one, exactly as the source does. -/
noncomputable def normalizeBearing (bearing currentBearing : ℝ) : ℝ :=
  let b := wrapDeg bearing
  let diff := |b - currentBearing|
  let b1 := if |b - 360 - currentBearing| < diff then b - 360 else b
  if |b1 + 360 - currentBearing| < diff then b1 + 360 else b1

/-- The wrapped value lies in [-180, 180). -/
theorem wrapDeg_mem (n : ℝ) : -180 ≤ wrapDeg n ∧ wrapDeg n < 180 := by
  unfold wrapDeg
  have h1 : (⌊(n + 180) / 360⌋ : ℝ) ≤ (n + 180) / 360 := Int.floor_le _
  have h2 : (n + 180) / 360 < ⌊(n + 180) / 360⌋ + 1 := Int.lt_floor_add_one _
  constructor <;> nlinarith

/-! ### LngLat (src/data/load_geometry.js lines 113-125) -/

/-- A JavaScript number where NaN is possible: `none` is NaN.  (±Infinity is
not modelled; no claim depends on it.) -/
abbrev JSNum := Option ℝ

/-- The two errors the LngLat constructor can throw. -/
inductive LngLatErr
  | invalidObject   -- "Invalid LngLat object: (lng, lat)"
  | invalidLatitude -- latitude must be between -90 and 90
  deriving DecidableEq, Repr

/-- LngLat constructor: throws on NaN longitude/latitude, then stores the
values, then throws if the latitude is outside [-90, 90]. -/
noncomputable def lngLatMake (lng lat : JSNum) : Except LngLatErr (ℝ × ℝ) :=
  match lng, lat with
  | some lngv, some latv =>
      if latv > 90 ∨ latv < -90 then .error .invalidLatitude
      else .ok (lngv, latv)
  | _, _ => .error .invalidObject

/-! ### Pooled worker dispatcher (src/unnamed/part_003) -/

/-- One logical (pooled) worker entry on the main-thread side: the logical id
it was created with and the real (native) worker index it is bound to. -/
structure PooledEntry where
  pooledWorkerId : ℕ
  boundWorker : ℕ
  deriving DecidableEq, Repr

/-- State of the dispatcher module (src/unnamed/part_003): the lazily created
native worker array (each native worker represented by its creation index),
the round-robin cursor, and the registry of pooled workers. -/
structure PoolState where
  nativeWorkers : List ℕ
  nextNativeWorkerIndex : ℕ
  pooledWorkers : List PooledEntry
  deriving DecidableEq, Repr

/-- createNativeWorkers: builds the fixed-size array of real workers. -/
def createNativeWorkers (workerCount : ℕ) : List ℕ :=
  List.range workerCount

/-- allocateNativeWorker (part_003 lines 21-27): creates the pool on first use,
returns the worker at the cursor, and advances the cursor modulo the pool
size. -/
def allocateNativeWorker (workerCount : ℕ) (st : PoolState) : ℕ × PoolState :=
  let nws := if st.nativeWorkers.isEmpty then createNativeWorkers workerCount
             else st.nativeWorkers
  let nw := nws.getD st.nextNativeWorkerIndex 0
  (nw, { st with nativeWorkers := nws
                 nextNativeWorkerIndex := (st.nextNativeWorkerIndex + 1) % nws.length })

/-- createPooledWorker (part_003 lines 29-59): the new logical id is the
current registry length; a native worker is allocated round-robin and the new
entry is appended at that id. -/
def createPooledWorker (workerCount : ℕ) (st : PoolState) : PoolState :=
  let pooledWorkerId := st.pooledWorkers.length
  let r := allocateNativeWorker workerCount st
  { r.2 with pooledWorkers := r.2.pooledWorkers ++ [⟨pooledWorkerId, r.1⟩] }

/-- The module-level initial state: empty pool, cursor 0, empty registry. -/
def initPool : PoolState := ⟨[], 0, []⟩

/-- Runs `k` pooled-worker allocations from the initial state. -/
def runAllocs (workerCount : ℕ) : ℕ → PoolState
  | 0 => initPool
  | k + 1 => createPooledWorker workerCount (runAllocs workerCount k)

/-- Closed form of the dispatcher state after `k` allocations against a pool
of `N ≥ 1` real workers. -/
theorem runAllocs_eq (N k : ℕ) (hN : 1 ≤ N) :
    runAllocs N k =
      ⟨if k = 0 then [] else List.range N, k % N,
       (List.range k).map (fun i => ⟨i, i % N⟩)⟩ := by
  induction k with
  | zero => simp [runAllocs, initPool]
  | succ k ih =>
      have hlen : (List.range N).length = N := List.length_range N
      have hne : (List.range N).isEmpty = false := by
        cases N with
        | zero => omega
        | succ n => simp [List.range_succ]
      have hlt : k % N < N := Nat.mod_lt _ (by omega)
      have hget : (List.range N)[k % N]?.getD 0 = k % N := by
        rw [List.getElem?_range hlt]; rfl
      rw [runAllocs, ih]
      unfold createPooledWorker allocateNativeWorker
      by_cases hk0 : k = 0
      · subst hk0
        have h0 : (List.range N)[(0 : ℕ)]? = some 0 :=
          List.getElem?_range (by omega)
        simp [initPool, createNativeWorkers, List.getD, h0, hlen,
              List.range_succ, Nat.mod_add_mod]
      · simp only [if_neg hk0, hne, Bool.false_eq_true, if_false, ite_false,
                   List.getD, hget, hlen]
        refine congrArg₂ (PoolState.mk (List.range N)) ?_ ?_
        · exact Nat.mod_add_mod k N 1
        · simp [List.range_succ, hget]

/-- C3: against a pool of `N ≥ 1` real workers, the `i`-th pooled-worker
allocation (0-based) is bound to the real worker at index `i mod N`, and
receives logical id `i`; after `k` allocations the registry has exactly the
entries `0..k-1` in order. -/
theorem claim_worker_round_robin (N k i : ℕ) (hN : 1 ≤ N) (hik : i < k) :
    (runAllocs N k).pooledWorkers[i]? = some ⟨i, i % N⟩ ∧
    (runAllocs N k).pooledWorkers.length = k := by
  rw [runAllocs_eq N k hN]
  refine ⟨?_, by simp⟩
  simp [List.getElem?_map, List.getElem?_range hik]

/-- Concrete instance of the round-robin claim: the 5th of 7 allocations on a
3-worker pool is bound to real worker 4 mod 3 = 1 and has logical id 4. -/
theorem claim_worker_round_robin_witness :
    (1 ≤ 3 ∧ 4 < 7) ∧
    ((runAllocs 3 7).pooledWorkers[4]? = some ⟨4, 4 % 3⟩ ∧
     (runAllocs 3 7).pooledWorkers.length = 7) :=
  ⟨⟨by decide, by decide⟩, claim_worker_round_robin 3 7 4 (by decide) (by decide)⟩

/-! ### Message routing (js/pooled_worker/worker_index.js, part_003 lines 6-19) -/

/-- Message type tags.  `createPooledWorker` is the control message type; all
other types are opaque job message types. -/
inductive MsgTag
  | createPooledWorker
  | other (t : ℕ)
  deriving DecidableEq, Repr

/-- An inbound message as seen by a router: the top-level logical worker id
(absent, i.e. `null`, on control messages), the type tag and, standing in for
the rest of the payload, one opaque ℕ (for the `createPooledWorker` control
message this is `data.pooledWorkerId`). -/
structure InMsg where
  pooledWorkerId : Option ℕ
  type : MsgTag
  dataId : ℕ
  deriving DecidableEq, Repr

/-- A registry from logical worker id to the events fired so far on the
handle registered under that id. -/
abbrev HandleReg := List (ℕ × List (MsgTag × ℕ))

/-- Looks up the handle registered under a logical id. -/
def regLookup (reg : HandleReg) (id : ℕ) : Option (List (MsgTag × ℕ)) :=
  (reg.find? (fun e => e.1 = id)).map Prod.snd

/-- Replaces the event list of the handle registered under `id`. -/
def regSet (reg : HandleReg) (id : ℕ) (evs : List (MsgTag × ℕ)) : HandleReg :=
  reg.map (fun e => if e.1 = id then (id, evs) else e)

/-- JavaScript `pooledWorkers[id] = handle`: overwrite if present, else add. -/
def regInsert (reg : HandleReg) (id : ℕ) : HandleReg :=
  match regLookup reg id with
  | some _ => regSet reg id []
  | none => reg ++ [(id, [])]

/-- The per-context message listener (worker_index.js lines 31-44; the
main-thread router in part_003 lines 6-19 is the `some id` half of the same
logic).  A message with a `null` logical id is a create-control message; any
other id is dispatched by firing the message as an event on the handle
registered under that id.  The `none => reg` arm is modelled from the spec:
firing at an id with no registered handle is a silent no-op (the Evented
module that the source delegates to, js/util/evented.js, is not in the
snapshot; spec §4.3/§7 define this case as a silent no-op). -/
def routerOnMessage (reg : HandleReg) (m : InMsg) : HandleReg :=
  match m.pooledWorkerId with
  | none =>
      if m.type = .createPooledWorker then regInsert reg m.dataId
      else reg
  | some id =>
      match regLookup reg id with
      | some evs => regSet reg id (evs ++ [(m.type, m.dataId)])
      | none => reg

/-- C7: a message whose logical worker id is not registered is a silent
no-op: the registry (and hence every handle's event list) is unchanged and no
error arises. -/
theorem claim_unknown_id_silent (reg : HandleReg) (m : InMsg) (id : ℕ)
    (hid : m.pooledWorkerId = some id) (hmiss : regLookup reg id = none) :
    routerOnMessage reg m = reg := by
  unfold routerOnMessage
  rw [hid]
  simp only [hmiss]

/-- Concrete instance: a job message for id 3 arriving at a router that only
knows id 0 leaves the registry unchanged. -/
theorem claim_unknown_id_silent_witness :
    (InMsg.mk (some 3) (.other 5) 9).pooledWorkerId = some 3 ∧
    regLookup [(0, [])] 3 = none ∧
    routerOnMessage [(0, [])] (InMsg.mk (some 3) (.other 5) 9) = [(0, [])] :=
  ⟨rfl, by decide,
   claim_unknown_id_silent [(0, [])] (InMsg.mk (some 3) (.other 5) 9) 3 rfl (by decide)⟩

/-- C8: LngLat construction errors synchronously on NaN coordinates and on
latitudes outside [-90, 90]; every other numeric input is stored unchanged. -/
theorem claim_lnglat_construction :
    (∀ lng lat : JSNum, lng = none ∨ lat = none →
        lngLatMake lng lat = .error .invalidObject) ∧
    (∀ x y : ℝ, 90 < y ∨ y < -90 →
        lngLatMake (some x) (some y) = .error .invalidLatitude) ∧
    (∀ x y : ℝ, -90 ≤ y → y ≤ 90 → lngLatMake (some x) (some y) = .ok (x, y)) := by
  refine ⟨?_, ?_, ?_⟩
  · rintro lng lat (rfl | rfl)
    · cases lat <;> rfl
    · cases lng <;> rfl
  · intro x y h
    simp only [lngLatMake, if_pos h]
  · intro x y h1 h2
    have h : ¬(90 < y ∨ y < -90) := by push_neg; exact ⟨h2, h1⟩
    simp only [lngLatMake, if_neg h]

/-- Concrete instances of the LngLat construction claim: NaN longitude and an
out-of-range latitude both error; an ordinary coordinate is stored as given. -/
theorem claim_lnglat_construction_witness :
    lngLatMake none (some 5) = .error .invalidObject ∧
    lngLatMake (some 1) (some 91) = .error .invalidLatitude ∧
    lngLatMake (some (-73)) (some 40) = .ok (-73, 40) :=
  ⟨claim_lnglat_construction.1 none (some 5) (Or.inl rfl),
   claim_lnglat_construction.2.1 1 91 (by norm_num),
   claim_lnglat_construction.2.2 (-73) 40 (by norm_num) (by norm_num)⟩

/-- C5 counterexample: `normalizeBearing 0 900` returns 360, which differs
from the current bearing 900 by 540 > 180, so the "result differs from the
current bearing by at most 180 degrees" part of the claim is false for current
bearings outside one revolution. -/
theorem claim_bearing_normalization_cex :
    normalizeBearing 0 900 = 360 ∧ ¬|normalizeBearing 0 900 - 900| ≤ 180 := by
  have hfl : ⌊((0 : ℝ) + 180) / 360⌋ = 0 := by
    rw [Int.floor_eq_zero_iff, Set.mem_Ico]
    norm_num
  have hw : wrapDeg 0 = 0 := by
    unfold wrapDeg
    rw [hfl]
    norm_num
  have h1 : |(0 : ℝ) - 360 - 900| = 1260 := by
    rw [abs_of_nonpos] <;> norm_num
  have h2 : |(0 : ℝ) - 900| = 900 := by
    rw [abs_of_nonpos] <;> norm_num
  have h3 : |(0 : ℝ) + 360 - 900| = 540 := by
    rw [abs_of_nonpos] <;> norm_num
  have hv : normalizeBearing 0 900 = 360 := by
    simp only [normalizeBearing, hw, h1, h2, h3]
    norm_num
  refine ⟨hv, ?_⟩
  rw [hv]
  have : |(360 : ℝ) - 900| = 540 := by
    rw [abs_of_nonpos] <;> norm_num
  rw [this]
  norm_num

/-- C5 amended: `normalizeBearing` returns the representative of the wrapped
target bearing (among `b`, `b - 360`, `b + 360` for `b` the target wrapped
into [-180, 180)) that is numerically closest to the current bearing; the
result is guaranteed to differ from the current bearing by at most 180 degrees
when the current bearing lies within one revolution (|current| ≤ 360). -/
theorem claim_bearing_normalization_amended (t c : ℝ) :
    (normalizeBearing t c = wrapDeg t ∨ normalizeBearing t c = wrapDeg t - 360 ∨
     normalizeBearing t c = wrapDeg t + 360) ∧
    |normalizeBearing t c - c| ≤ |wrapDeg t - c| ∧
    |normalizeBearing t c - c| ≤ |wrapDeg t - 360 - c| ∧
    |normalizeBearing t c - c| ≤ |wrapDeg t + 360 - c| ∧
    (|c| ≤ 360 → |normalizeBearing t c - c| ≤ 180) := by
  obtain ⟨hb1, hb2⟩ := wrapDeg_mem t
  simp only [normalizeBearing]
  split_ifs with h1 h2 h3
  · rw [show wrapDeg t - 360 + 360 - c = wrapDeg t - c from by ring] at h2
    exact absurd h2 (lt_irrefl _)
  · -- result is wrapDeg t - 360; from h1, the start-to-target gap exceeds 180
    have hx : 180 < wrapDeg t - c := by
      rcases abs_cases (wrapDeg t - 360 - c) with ⟨e1, s1⟩ | ⟨e1, s1⟩ <;>
        rcases abs_cases (wrapDeg t - c) with ⟨e2, s2⟩ | ⟨e2, s2⟩ <;>
        rw [e1, e2] at h1 <;> linarith
    refine ⟨Or.inr (Or.inl rfl), le_of_lt h1, le_refl _, ?_, ?_⟩
    · rcases abs_cases (wrapDeg t - 360 - c) with ⟨e1, s1⟩ | ⟨e1, s1⟩ <;>
        rcases abs_cases (wrapDeg t + 360 - c) with ⟨e2, s2⟩ | ⟨e2, s2⟩ <;>
        rw [e1, e2] <;> linarith
    · intro hc
      obtain ⟨hc1, hc2⟩ := abs_le.mp hc
      rw [abs_le]
      exact ⟨by linarith, by linarith⟩
  · -- result is wrapDeg t + 360; from h3, the target-to-start gap exceeds 180
    have hx : wrapDeg t - c < -180 := by
      rcases abs_cases (wrapDeg t + 360 - c) with ⟨e1, s1⟩ | ⟨e1, s1⟩ <;>
        rcases abs_cases (wrapDeg t - c) with ⟨e2, s2⟩ | ⟨e2, s2⟩ <;>
        rw [e1, e2] at h3 <;> linarith
    refine ⟨Or.inr (Or.inr rfl), le_of_lt h3, ?_, le_refl _, ?_⟩
    · rcases abs_cases (wrapDeg t + 360 - c) with ⟨e1, s1⟩ | ⟨e1, s1⟩ <;>
        rcases abs_cases (wrapDeg t - 360 - c) with ⟨e2, s2⟩ | ⟨e2, s2⟩ <;>
        rw [e1, e2] <;> linarith
    · intro hc
      obtain ⟨hc1, hc2⟩ := abs_le.mp hc
      rw [abs_le]
      exact ⟨by linarith, by linarith⟩
  · -- result is wrapDeg t itself: not closer in either direction
    refine ⟨Or.inl rfl, le_refl _, le_of_not_lt h1, le_of_not_lt h3, ?_⟩
    intro hc
    obtain ⟨hc1, hc2⟩ := abs_le.mp hc
    rw [abs_le]
    constructor
    · by_contra h
      push_neg at h
      refine h3 ?_
      rcases abs_cases (wrapDeg t + 360 - c) with ⟨e1, s1⟩ | ⟨e1, s1⟩ <;>
        rcases abs_cases (wrapDeg t - c) with ⟨e2, s2⟩ | ⟨e2, s2⟩ <;>
        rw [e1, e2] <;> linarith
    · by_contra h
      push_neg at h
      refine h1 ?_
      rcases abs_cases (wrapDeg t - 360 - c) with ⟨e1, s1⟩ | ⟨e1, s1⟩ <;>
        rcases abs_cases (wrapDeg t - c) with ⟨e2, s2⟩ | ⟨e2, s2⟩ <;>
        rw [e1, e2] <;> linarith

/-- Concrete instance of the amended bearing claim at the spec's own example:
`normalizeBearing 10 350` evaluates to 370, and by the amended theorem the
result is within 180 degrees of the current bearing 350. -/
theorem claim_bearing_normalization_witness :
    normalizeBearing 10 350 = 370 ∧
    (|(350 : ℝ)| ≤ 360 ∧ |normalizeBearing 10 350 - 350| ≤ 180) := by
  have hfl : ⌊((10 : ℝ) + 180) / 360⌋ = 0 := by
    rw [Int.floor_eq_zero_iff, Set.mem_Ico]
    norm_num
  have hw : wrapDeg 10 = 10 := by
    unfold wrapDeg
    rw [hfl]
    norm_num
  have h1 : |(10 : ℝ) - 360 - 350| = 700 := by
    rw [abs_of_nonpos] <;> norm_num
  have h2 : |(10 : ℝ) - 350| = 340 := by
    rw [abs_of_nonpos] <;> norm_num
  have h3 : |(10 : ℝ) + 360 - 350| = 20 := by
    rw [abs_of_nonneg] <;> norm_num
  refine ⟨?_, by norm_num,
          (claim_bearing_normalization_amended 10 350).2.2.2.2 (by norm_num)⟩
  simp only [normalizeBearing, hw, h1, h2, h3]
  norm_num

/-! ### Camera data model (src/ui/camera.js) -/

/-- The camera state held by the Transform (geo/transform.js is not in the
snapshot; only the fields the camera code reads and writes are modelled, plus
the `minZoom`/`maxZoom` clamp bounds and the flags `_normalizeCenter` reads).
`center` is a (lng, lat) pair; `lngRangeSet` says whether a hard longitude
range is configured. -/
structure Transform where
  width : ℝ
  height : ℝ
  center : ℝ × ℝ
  zoom : ℝ
  bearing : ℝ
  pitch : ℝ
  minZoom : ℝ
  maxZoom : ℝ
  renderWorldCopies : Bool
  lngRangeSet : Bool

/-- An easing function, kept opaque: the claims never evaluate one, only
compare which one a session ends up with.  `utilEase` is the `util.ease`
default, `custom` a caller-supplied function, `smoothed` the output of
`_smoothOutEasing`. -/
inductive EasingSpec
  | utilEase
  | custom (id : ℕ)
  | smoothed
  deriving DecidableEq, Repr

/-- The visible-span curve a flyTo session animates along: either the pure
exponential zoom curve `w(s) = exp(k·ρ·s)` used when `u1 ≈ 0`, or the
hyperbolic curve `w(s) = cosh(r0)/cosh(r0 + ρ·s)` of the general optimal
path. -/
inductive FlyPathKind
  | exponential (k rho S : ℝ)
  | hyperbolic (r0 rho S : ℝ)

/-- The visible span along the exponential degenerate path. -/
noncomputable def wExp (k rho s : ℝ) : ℝ := Real.exp (k * rho * s)

/-- The visible span along the hyperbolic optimal path (camera.js line 750). -/
noncomputable def wHyp (r0 rho s : ℝ) : ℝ :=
  Real.cosh r0 / Real.cosh (r0 + rho * s)

/-- An active animation session: what the `_ease` machinery retains.  The
finish closure captures the session's eventData and (for easeTo) the
`delayEndEvents` option; `duration`/`easing` are what `browser.timed` was
given; `path` is the flyTo span curve (none for easeTo sessions). -/
structure Session where
  finishData : ℕ
  delayEndEvents : Option ℝ
  duration : ℝ
  easing : EasingSpec
  path : Option FlyPathKind

/-- A Camera: its Transform, the `moving`/`zooming`/`rotating`/`pitching`
flags, the active session (`_abortFn`/`_finishFn` present iff `some`), and a
pending deferred `_easeToEnd` timeout (`_onEaseEnd`), which captured the
eventData of the session that scheduled it. -/
structure CameraState where
  tr : Transform
  moving : Bool
  zooming : Bool
  rotating : Bool
  pitching : Bool
  session : Option Session
  pendingEnd : Option ℕ

/-- The fitBounds `padding` option: a bare number, or an object with per-side
pixel paddings given as key/value entries. -/
inductive PaddingInput
  | num (p : ℝ)
  | obj (entries : List (String × ℝ))

/-- The options object shared by `jumpTo`/`easeTo`/`flyTo`/`fitBounds` (a JS
options object carries whichever keys the caller set; `none` means the key is
absent).  `animate` defaults to true (the code only tests
`options.animate === false`). -/
structure CamOptions where
  center : Option (ℝ × ℝ) := none
  zoom : Option ℝ := none
  bearing : Option ℝ := none
  pitch : Option ℝ := none
  around : Option (ℝ × ℝ) := none
  offset : Option (ℝ × ℝ) := none
  duration : Option ℝ := none
  easing : Option EasingSpec := none
  animate : Bool := true
  smoothEasing : Bool := false
  noMoveStart : Bool := false
  delayEndEvents : Option ℝ := none
  speed : Option ℝ := none
  curve : Option ℝ := none
  minZoom : Option ℝ := none
  screenSpeed : Option ℝ := none
  linear : Bool := false
  maxZoom : Option ℝ := none
  padding : Option PaddingInput := none

/-- The nearly-empty options object `{}`. -/
def emptyOpts : CamOptions := {}

/-- Camera#_easeToEnd events (lines 599-614): `zoomend` if the session was
zooming, `pitchend` if pitching, then `moveend`, all with the finish
closure's captured eventData. -/
def easeToEndEvents (st : CameraState) (ed : ℕ) : List Event :=
  (if st.zooming then [⟨.zoomend, ed⟩] else []) ++
  (if st.pitching then [⟨.pitchend, ed⟩] else []) ++
  [⟨.moveend, ed⟩]

/-- Camera#_easeToEnd (lines 599-614): reads the flags, clears them and
`moving`, then fires the end events computed from the old flags. -/
def easeToEnd (st : CameraState) (ed : ℕ) : CameraState × List Event :=
  ({ st with moving := false, zooming := false, rotating := false,
             pitching := false },
   easeToEndEvents st ed)

/-- Camera#stop (lines 828-834) plus _finishEase (lines 846-853): if a session
is active, abort it and run its finish closure.  An easeTo session started
with `delayEndEvents` defers `_easeToEnd` on a timeout (line 563), so stopping
it fires nothing now and records the pending timeout; otherwise `_easeToEnd`
runs synchronously. -/
def stop (st : CameraState) : CameraState × List Event :=
  match st.session with
  | none => (st, [])
  | some s =>
      let st1 := { st with session := none }
      match s.delayEndEvents with
      | some _ => ({ st1 with pendingEnd := some s.finishData }, [])
      | none => easeToEnd st1 s.finishData

/-- Camera#_prepareEase (lines 572-584): sets `moving`, fires `movestart`
(unless suppressed), then `zoomstart`/`pitchstart` per the flags. -/
def prepareEase (st : CameraState) (ed : ℕ) (noMoveStart : Bool) :
    CameraState × List Event :=
  ({ st with moving := true },
   (if noMoveStart then [] else [⟨.movestart, ed⟩]) ++
   (if st.zooming then [⟨.zoomstart, ed⟩] else []) ++
   (if st.pitching then [⟨.pitchstart, ed⟩] else []))

/-- Camera#_fireMoveEvents (lines 586-597): the events fired on every
animation frame: `move`, then `zoom`/`rotate`/`pitch` per the flags. -/
def fireMoveEvents (st : CameraState) (ed : ℕ) : List Event :=
  [⟨.move, ed⟩] ++
  (if st.zooming then [⟨.zoom, ed⟩] else []) ++
  (if st.rotating then [⟨.rotate, ed⟩] else []) ++
  (if st.pitching then [⟨.pitch, ed⟩] else [])

/-- Camera#jumpTo (lines 417-464): stop, then update whichever of
zoom/center/bearing/pitch is present (recording whether zoom/bearing/pitch
actually changed), then fire the event sequence synchronously. -/
noncomputable def jumpTo (st0 : CameraState) (o : CamOptions) (ed : ℕ) :
    CameraState × List Event :=
  let r := stop st0
  let st := r.1
  let tr := st.tr
  let z : Bool × Transform :=
    match o.zoom with
    | some z => if tr.zoom ≠ z then (true, { tr with zoom := z }) else (false, tr)
    | none => (false, tr)
  let tr1 := z.2
  let tr2 : Transform :=
    match o.center with
    | some c => { tr1 with center := c }
    | none => tr1
  let b : Bool × Transform :=
    match o.bearing with
    | some v => if tr2.bearing ≠ v then (true, { tr2 with bearing := v })
                else (false, tr2)
    | none => (false, tr2)
  let tr3 := b.2
  let p : Bool × Transform :=
    match o.pitch with
    | some v => if tr3.pitch ≠ v then (true, { tr3 with pitch := v })
                else (false, tr3)
    | none => (false, tr3)
  let tr4 := p.2
  let evs : List Event :=
    [⟨.movestart, ed⟩, ⟨.move, ed⟩] ++
    (if z.1 then [⟨.zoomstart, ed⟩, ⟨.zoom, ed⟩, ⟨.zoomend, ed⟩] else []) ++
    (if b.1 then [⟨.rotate, ed⟩] else []) ++
    (if p.1 then [⟨.pitchstart, ed⟩, ⟨.pitch, ed⟩, ⟨.pitchend, ed⟩] else []) ++
    [⟨.moveend, ed⟩]
  ({ st with tr := tr4 }, r.2 ++ evs)

/-- Camera#easeTo after its initial `this.stop()` (lines 491-569): apply the
option defaults, resolve the targets, set the flags, fire the start events,
clear any pending deferred end-events timeout, and register the new session.
The per-frame center interpolation (lines 536-560) is driven by
geo/transform.js projection math that is not in the snapshot and no claim
depends on it, so the session records only the observable fields.
`browser.timed` (util/browser.js, also not in the snapshot) is modelled from
the spec as an asynchronous timing source: no frame runs before the call
returns. -/
noncomputable def easeToPost (st : CameraState) (o : CamOptions) (ed : ℕ) :
    CameraState × List Event :=
  let duration0 := o.duration.getD 500
  let duration := if o.animate = false then 0 else duration0
  let easing := if o.smoothEasing ∧ duration ≠ 0 then EasingSpec.smoothed
                else o.easing.getD .utilEase
  let tr := st.tr
  let startZoom := tr.zoom
  let startBearing := tr.bearing
  let startPitch := tr.pitch
  let zoom := o.zoom.getD startZoom
  let bearing := o.bearing.elim startBearing
    (fun v => normalizeBearing v startBearing)
  let pitch := o.pitch.getD startPitch
  let st1 := { st with
    zooming := if zoom ≠ startZoom then true else false
    rotating := if startBearing ≠ bearing then true else false
    pitching := if pitch ≠ startPitch then true else false }
  let r2 := prepareEase st1 ed o.noMoveStart
  let st2 := { r2.1 with pendingEnd := none }
  let st3 := { st2 with
    session := some ⟨ed, o.delayEndEvents, duration, easing, none⟩ }
  (st3, r2.2)

/-- Camera#easeTo (lines 488-570): stop the active animation, then run the
rest; the call's event trace is the stop's events followed by the new start
events. -/
noncomputable def easeTo (st0 : CameraState) (o : CamOptions) (ed : ℕ) :
    CameraState × List Event :=
  let r := stop st0
  let r2 := easeToPost r.1 o ed
  (r2.1, r.2 ++ r2.2)

/-- stop leaves the Transform untouched. -/
theorem stop_tr (st : CameraState) : (stop st).1.tr = st.tr := by
  obtain ⟨tr, m, z, r, p, session, pe⟩ := st
  cases session with
  | none => rfl
  | some s =>
      obtain ⟨fd, de, du, ea, pa⟩ := s
      cases de <;> simp [stop, easeToEnd]

/-- stop is idempotent: stopping an already-stopped camera does nothing. -/
theorem stop_stop (st : CameraState) : stop (stop st).1 = ((stop st).1, []) := by
  obtain ⟨tr, m, z, r, p, session, pe⟩ := st
  cases session with
  | none => rfl
  | some s =>
      obtain ⟨fd, de, du, ea, pa⟩ := s
      cases de <;> simp [stop, easeToEnd]

/-- stop on an idle camera is a no-op. -/
theorem stop_of_none (st : CameraState) (h : st.session = none) :
    stop st = (st, []) := by
  unfold stop
  rw [h]

/-- A 100×100 viewport at center (0,0), zoom 0, bearing 0, pitch 0. -/
def trA : Transform := ⟨100, 100, (0, 0), 0, 0, 0, 0, 22, false, false⟩

/-- An idle camera on `trA`. -/
def stIdle : CameraState := ⟨trA, false, false, false, false, none, none⟩

/-- An idle camera like `stIdle` but already at zoom 5. -/
def stIdle5 : CameraState :=
  ⟨{ trA with zoom := 5 }, false, false, false, false, none, none⟩

/-- C4: on an idle camera at zoom 0, `jumpTo {zoom: 5}` synchronously sets the
zoom to 5, leaves center/bearing/pitch unchanged, and fires exactly
movestart, move, zoomstart, zoom, zoomend, moveend in that order; on a camera
already at zoom 5 the same call fires no zoom events (the zoom events fire
only because the supplied zoom differs from the current zoom). -/
theorem claim_jumpto_zoom_scenario (st st2 : CameraState) (ed : ℕ)
    (h1 : st.session = none) (h2 : st.tr.zoom = 0)
    (h3 : st2.session = none) (h4 : st2.tr.zoom = 5) :
    (jumpTo st { emptyOpts with zoom := some 5 } ed).1.tr.zoom = 5 ∧
    (jumpTo st { emptyOpts with zoom := some 5 } ed).1.tr.center = st.tr.center ∧
    (jumpTo st { emptyOpts with zoom := some 5 } ed).1.tr.bearing = st.tr.bearing ∧
    (jumpTo st { emptyOpts with zoom := some 5 } ed).1.tr.pitch = st.tr.pitch ∧
    (jumpTo st { emptyOpts with zoom := some 5 } ed).2 =
      [⟨.movestart, ed⟩, ⟨.move, ed⟩, ⟨.zoomstart, ed⟩, ⟨.zoom, ed⟩,
       ⟨.zoomend, ed⟩, ⟨.moveend, ed⟩] ∧
    (jumpTo st2 { emptyOpts with zoom := some 5 } ed).2 =
      [⟨.movestart, ed⟩, ⟨.move, ed⟩, ⟨.moveend, ed⟩] := by
  have e1 : stop st = (st, []) := stop_of_none st h1
  have e2 : stop st2 = (st2, []) := stop_of_none st2 h3
  refine ⟨?_, ?_, ?_, ?_, ?_, ?_⟩ <;>
    norm_num [jumpTo, e1, e2, emptyOpts, h2, h4]

/-- Concrete instance of the jumpTo scenario on the `stIdle`/`stIdle5`
cameras. -/
theorem claim_jumpto_zoom_scenario_witness :
    (jumpTo stIdle { emptyOpts with zoom := some 5 } 1).1.tr.zoom = 5 ∧
    (jumpTo stIdle { emptyOpts with zoom := some 5 } 1).1.tr.center =
      stIdle.tr.center ∧
    (jumpTo stIdle { emptyOpts with zoom := some 5 } 1).1.tr.bearing =
      stIdle.tr.bearing ∧
    (jumpTo stIdle { emptyOpts with zoom := some 5 } 1).1.tr.pitch =
      stIdle.tr.pitch ∧
    (jumpTo stIdle { emptyOpts with zoom := some 5 } 1).2 =
      [⟨.movestart, 1⟩, ⟨.move, 1⟩, ⟨.zoomstart, 1⟩, ⟨.zoom, 1⟩,
       ⟨.zoomend, 1⟩, ⟨.moveend, 1⟩] ∧
    (jumpTo stIdle5 { emptyOpts with zoom := some 5 } 1).2 =
      [⟨.movestart, 1⟩, ⟨.move, 1⟩, ⟨.moveend, 1⟩] :=
  claim_jumpto_zoom_scenario stIdle stIdle5 1 rfl rfl rfl rfl

/-- An easeTo session that was started with `delayEndEvents` (eventData 7). -/
def sessDelayed : Session := ⟨7, some 100, 500, .utilEase, none⟩

/-- A camera with `sessDelayed` in progress (a zooming ease). -/
def stBusy : CameraState := ⟨trA, true, true, false, false, some sessDelayed, none⟩

/-- C2 counterexample: a camera with a zooming session in progress whose
session was started with `delayEndEvents`.  Calling `easeTo {}` fires only the
new session's `movestart` — the prior session's end events are deferred to a
timeout by `stop()` and that timeout is then cancelled by `easeTo`'s
`clearTimeout(this._onEaseEnd)` (camera.js line 534), so no prior `moveend`
(eventData 7) is fired before the new start events, or ever. -/
theorem claim_single_session_cex :
    stBusy.session.isSome = true ∧
    (easeTo stBusy emptyOpts 5).2 = [⟨.movestart, 5⟩] ∧
    Event.mk .moveend 7 ∉ (easeTo stBusy emptyOpts 5).2 ∧
    (easeTo stBusy emptyOpts 5).1.pendingEnd = none := by
  refine ⟨rfl, ?_, ?_, ?_⟩ <;>
    simp [easeTo, easeToPost, stop, stBusy, sessDelayed, trA, emptyOpts,
          prepareEase, easeToEnd, easeToEndEvents]

/-- C2 amended: when the prior session was started without `delayEndEvents`,
starting a new easeTo fires the prior session's end events (zoomend/pitchend
as applicable, then moveend, with the prior session's eventData)
synchronously before the new session's start events (movestart unless
suppressed, then zoomstart/pitchstart per the new flags), and the call leaves
exactly one (the new) session active. -/
theorem claim_single_session_amended (st : CameraState) (o : CamOptions)
    (ed : ℕ) (s : Session) (h1 : st.session = some s)
    (h2 : s.delayEndEvents = none) :
    (easeTo st o ed).2 =
      ((if st.zooming then [Event.mk .zoomend s.finishData] else []) ++
       (if st.pitching then [Event.mk .pitchend s.finishData] else []) ++
       [Event.mk .moveend s.finishData]) ++
      ((if o.noMoveStart then [] else [Event.mk .movestart ed]) ++
       (if (easeTo st o ed).1.zooming then [Event.mk .zoomstart ed] else []) ++
       (if (easeTo st o ed).1.pitching then [Event.mk .pitchstart ed] else [])) ∧
    (easeTo st o ed).1.session.isSome = true := by
  constructor
  · simp [easeTo, easeToPost, prepareEase, stop, easeToEnd, easeToEndEvents,
          h1, h2]
  · simp [easeTo, easeToPost, prepareEase, stop, easeToEnd, h1, h2]

/-- An easeTo session without `delayEndEvents` (eventData 7). -/
def sessNoDelay : Session := ⟨7, none, 500, .utilEase, none⟩

/-- A camera with `sessNoDelay` in progress (a zooming ease). -/
def stBusy2 : CameraState :=
  ⟨trA, true, true, false, false, some sessNoDelay, none⟩

/-- Concrete instance of the amended single-session claim: the prior zooming
session's `zoomend`/`moveend` (eventData 7) fire before the new session's
`movestart` (eventData 5), within the one `easeTo` call. -/
theorem claim_single_session_witness :
    stBusy2.session = some sessNoDelay ∧
    (easeTo stBusy2 emptyOpts 5).2 =
      [Event.mk .zoomend 7, Event.mk .moveend 7, Event.mk .movestart 5] := by
  have h := claim_single_session_amended stBusy2 emptyOpts 5 sessNoDelay rfl rfl
  refine ⟨rfl, ?_⟩
  rw [h.1]
  norm_num [stBusy2, sessNoDelay, emptyOpts, easeTo, easeToPost, prepareEase,
            stop, easeToEnd, easeToEndEvents, trA]

/-! ### flyTo (src/ui/camera.js lines 669-806)

The Transform's projection functions live in geo/transform.js, which is not in
the snapshot; they are taken as explicit parameters `proj` (Transform#project:
geographic → world pixel at the current scale) and `pointLoc`
(Transform#pointLocation: screen pixel → geographic).  `zoomScale`,
`scaleZoom`, `centerPoint` and `clampR` are modelled from the spec. -/

/-- Modelled from the spec (§4.1): `Transform#zoomScale(zoomDelta) = 2^zoomDelta`
(geo/transform.js is not in the snapshot). -/
noncomputable def zoomScale (d : ℝ) : ℝ := (2 : ℝ) ^ d

/-- Modelled from the spec (§4.1): `Transform#scaleZoom(scale) = log2(scale)`. -/
noncomputable def scaleZoom (s : ℝ) : ℝ := Real.logb 2 s

/-- Modelled from the spec: `util.clamp(n, lo, hi)` (util/util.js is not in
the snapshot): clamps n into [lo, hi]. -/
noncomputable def clampR (n lo hi : ℝ) : ℝ := min hi (max lo n)

/-- Modelled from the spec: `Transform#centerPoint`, the screen point at the
viewport's dead center. -/
noncomputable def centerPoint (tr : Transform) : ℝ × ℝ :=
  (tr.width / 2, tr.height / 2)

/-- Camera#_normalizeCenter (lines 866-874): with world copies rendered and no
hard longitude range, shift the target longitude by ±360 when the path across
the antimeridian is shorter. -/
noncomputable def normalizeCenter (tr : Transform) (c : ℝ × ℝ) : ℝ × ℝ :=
  if !tr.renderWorldCopies || tr.lngRangeSet then c
  else
    let delta := c.1 - tr.center.1
    (c.1 + (if delta > 180 then -360 else if delta < -180 then 360 else 0), c.2)

/-- flyTo's `pointAtOffset := tr.centerPoint.add(Point.convert(options.offset))`
(line 697); the offset option defaults to [0, 0]. -/
noncomputable def pointAtOffsetOf (tr : Transform) (o : CamOptions) : ℝ × ℝ :=
  let off := o.offset.getD (0, 0)
  ((centerPoint tr).1 + off.1, (centerPoint tr).2 + off.2)

/-- flyTo's `locationAtOffset := tr.pointLocation(pointAtOffset)` (line 698). -/
noncomputable def locationAtOffsetOf (pointLoc : ℝ × ℝ → ℝ × ℝ)
    (tr : Transform) (o : CamOptions) : ℝ × ℝ :=
  pointLoc (pointAtOffsetOf tr o)

/-- flyTo's target `center` (lines 699-700): the center option (defaulting to
the location at the offset point) passed through `_normalizeCenter`. -/
noncomputable def targetCenterOf (pointLoc : ℝ × ℝ → ℝ × ℝ)
    (tr : Transform) (o : CamOptions) : ℝ × ℝ :=
  normalizeCenter tr (o.center.getD (locationAtOffsetOf pointLoc tr o))

/-- flyTo's `delta := tr.project(center).sub(from)` (lines 702-703). -/
noncomputable def flyToDelta (proj pointLoc : ℝ × ℝ → ℝ × ℝ)
    (tr : Transform) (o : CamOptions) : ℝ × ℝ :=
  let fromP := proj (locationAtOffsetOf pointLoc tr o)
  let toP := proj (targetCenterOf pointLoc tr o)
  (toP.1 - fromP.1, toP.2 - fromP.2)

/-- flyTo's `w0 := max(tr.width, tr.height)` (line 708): the initial visible
span in pixels. -/
noncomputable def flyToW0 (tr : Transform) : ℝ := max tr.width tr.height

/-- flyTo's `w1 := w0 / scale` with `scale := tr.zoomScale(zoom - startZoom)`
(lines 696, 710): the final visible span at the initial scale. -/
noncomputable def flyToW1 (tr : Transform) (o : CamOptions) : ℝ :=
  flyToW0 tr / zoomScale (o.zoom.getD tr.zoom - tr.zoom)

/-- flyTo's `u1 := delta.mag()` (line 713): the planar pixel distance between
the start and target centers at the initial scale. -/
noncomputable def flyToU1 (proj pointLoc : ℝ × ℝ → ℝ × ℝ)
    (tr : Transform) (o : CamOptions) : ℝ :=
  Real.sqrt ((flyToDelta proj pointLoc tr o).1 ^ 2 +
             (flyToDelta proj pointLoc tr o).2 ^ 2)

/-- flyTo's `rho` (lines 705, 715-721): the curve option (default 1.42),
overridden when `minZoom` is given so that the path peaks at that zoom. -/
noncomputable def flyToRho (proj pointLoc : ℝ × ℝ → ℝ × ℝ)
    (tr : Transform) (o : CamOptions) : ℝ :=
  match o.minZoom with
  | none => o.curve.getD 1.42
  | some mz =>
      let startZoom := tr.zoom
      let zoom := o.zoom.getD startZoom
      let minZoom := clampR (min (min mz startZoom) zoom) tr.minZoom tr.maxZoom
      let wMax := flyToW0 tr / zoomScale (minZoom - startZoom)
      Real.sqrt (wMax / flyToU1 proj pointLoc tr o * 2)

/-- flyTo's `r(i)` (lines 732-735): the zoom-out factor at the ascent
(`i = false`) or descent (`i = true`) end of the hyperbolic path. -/
noncomputable def rFun (w0 w1 u1 rho2 : ℝ) (i : Bool) : ℝ :=
  let b := (w1 * w1 - w0 * w0 + (if i then -1 else 1) * rho2 * rho2 * u1 * u1) /
           (2 * (if i then w1 else w0) * rho2 * u1)
  Real.log (Real.sqrt (b * b + 1) - b)

/-- Camera#flyTo (lines 669-806).  Stops the active animation, resolves the
targets and the Van Wijk-Nuij path parameters, then: if `u1 ≈ 0` and
`w0 ≈ w1`, delegates wholesale to easeTo with the same options and eventData;
if only `u1 ≈ 0`, replaces the path with the pure exponential zoom curve;
otherwise flies the hyperbolic path.  In the non-delegating cases it marks
the session as zooming unconditionally (line 779), fires the start events
(noMoveStart is passed as `false`, line 783), and registers the session with
the computed duration (lines 772-777; `_ease` turns it into 0 when
`animate === false`).  flyTo does not clear `_onEaseEnd`. -/
noncomputable def flyTo (proj pointLoc : ℝ × ℝ → ℝ × ℝ) (st0 : CameraState)
    (o : CamOptions) (ed : ℕ) : CameraState × List Event :=
  let r := stop st0
  let st := r.1
  let tr := st.tr
  let startBearing := tr.bearing
  let startPitch := tr.pitch
  let bearing := o.bearing.elim startBearing
    (fun v => normalizeBearing v startBearing)
  let pitch := o.pitch.getD startPitch
  let w0 := flyToW0 tr
  let w1 := flyToW1 tr o
  let u1 := flyToU1 proj pointLoc tr o
  let rho := flyToRho proj pointLoc tr o
  let rho2 := rho * rho
  let r0 := rFun w0 w1 u1 rho2 false
  let S0 := (rFun w0 w1 u1 rho2 true - r0) / rho
  let finish := fun (path : FlyPathKind) (S : ℝ) =>
    let duration : ℝ :=
      match o.duration with
      | some d => d
      | none =>
          let V := match o.screenSpeed with
            | some ss => ss / rho
            | none => o.speed.getD 1.2
          1000 * S / V
    let st1 := { st with
      zooming := true
      rotating := if startBearing ≠ bearing then true else false
      pitching := if pitch ≠ startPitch then true else false }
    let r2 := prepareEase st1 ed false
    let st2 := { r2.1 with
      session := some ⟨ed, none, (if o.animate = false then 0 else duration),
                       o.easing.getD .utilEase, some path⟩ }
    (st2, r.2 ++ r2.2)
  if |u1| < 1 / 1000000 then
    if |w0 - w1| < 1 / 1000000 then
      let re := easeTo st o ed
      (re.1, r.2 ++ re.2)
    else
      let k : ℝ := if w1 < w0 then -1 else 1
      let S := |Real.log (w1 / w0)| / rho
      finish (.exponential k rho S) S
  else
    finish (.hyperbolic r0 rho S0) S0

/-- The flyTo path curve recorded on a camera's active session, if any. -/
def pathOf (st : CameraState) : Option FlyPathKind :=
  st.session.bind (fun s => s.path)

/-- Helper: when no target center is supplied and world copies are off, the
flyTo ground distance u1 is exactly 0 (the target center falls back to the
location at the offset point, so the projected delta vanishes). -/
theorem flyToU1_center_none (proj pointLoc : ℝ × ℝ → ℝ × ℝ) (tr : Transform)
    (o : CamOptions) (hc : o.center = none)
    (hrw : tr.renderWorldCopies = false) :
    flyToU1 proj pointLoc tr o = 0 := by
  unfold flyToU1 flyToDelta targetCenterOf
  rw [hc]
  simp [normalizeCenter, hrw, Real.sqrt_eq_zero']

/-- C1: if the ground distance u1 is (approximately) zero and the initial and
final visible spans are equal (start zoom == target zoom), flyTo delegates
wholesale to easeTo with the same options and event data — the call returns
exactly what the equivalent easeTo call returns; if the distance is
(approximately) zero but the spans differ by at least the threshold, the
session instead animates the pure exponential zoom curve. -/
theorem claim_flyto_degeneration (proj pointLoc : ℝ × ℝ → ℝ × ℝ)
    (st : CameraState) (o : CamOptions) (ed : ℕ)
    (hu : |flyToU1 proj pointLoc st.tr o| < 1 / 1000000) :
    (o.zoom.getD st.tr.zoom = st.tr.zoom →
       flyTo proj pointLoc st o ed = easeTo st o ed) ∧
    (¬|flyToW0 st.tr - flyToW1 st.tr o| < 1 / 1000000 →
       pathOf (flyTo proj pointLoc st o ed).1 =
         some (.exponential
           (if flyToW1 st.tr o < flyToW0 st.tr then -1 else 1)
           (flyToRho proj pointLoc st.tr o)
           (|Real.log (flyToW1 st.tr o / flyToW0 st.tr)| /
              flyToRho proj pointLoc st.tr o))) := by
  have htr := stop_tr st
  constructor
  · intro hz
    have hw1 : flyToW1 st.tr o = flyToW0 st.tr := by
      unfold flyToW1
      rw [hz, sub_self]
      unfold zoomScale
      rw [Real.rpow_zero, div_one]
    have hw : |flyToW0 st.tr - flyToW1 st.tr o| < 1 / 1000000 := by
      rw [hw1, sub_self, abs_zero]
      norm_num
    simp only [flyTo, htr]
    rw [if_pos hu, if_pos hw]
    simp [easeTo, stop_stop]
  · intro hnw
    simp only [flyTo, htr]
    rw [if_pos hu, if_neg hnw]
    simp [pathOf, prepareEase]

/-- The identity projection, used to instantiate the abstract Transform
projection functions in concrete witnesses. -/
def projPlain : ℝ × ℝ → ℝ × ℝ := fun p => p

/-- A point-location function that maps every screen point to (0, 0). -/
def locZero : ℝ × ℝ → ℝ × ℝ := fun _ => (0, 0)

/-- Options `{zoom: 1}`. -/
def oZoom1 : CamOptions := { emptyOpts with zoom := some 1 }

/-- Concrete instance of the flyTo degeneration claim on the idle camera:
with no center and no zoom change, flyTo equals the easeTo call; with no
center but a zoom change of 1, the session takes the exponential curve. -/
theorem claim_flyto_degeneration_witness :
    (|flyToU1 projPlain projPlain stIdle.tr emptyOpts| < 1 / 1000000 ∧
     flyTo projPlain projPlain stIdle emptyOpts 0 = easeTo stIdle emptyOpts 0) ∧
    (¬|flyToW0 stIdle.tr - flyToW1 stIdle.tr oZoom1| < 1 / 1000000 ∧
     pathOf (flyTo projPlain projPlain stIdle oZoom1 0).1 =
       some (.exponential
         (if flyToW1 stIdle.tr oZoom1 < flyToW0 stIdle.tr then -1 else 1)
         (flyToRho projPlain projPlain stIdle.tr oZoom1)
         (|Real.log (flyToW1 stIdle.tr oZoom1 / flyToW0 stIdle.tr)| /
            flyToRho projPlain projPlain stIdle.tr oZoom1))) := by
  have hu0 : flyToU1 projPlain projPlain stIdle.tr emptyOpts = 0 :=
    flyToU1_center_none _ _ _ _ rfl rfl
  have hu1 : flyToU1 projPlain projPlain stIdle.tr oZoom1 = 0 :=
    flyToU1_center_none _ _ _ _ rfl rfl
  have hsmall0 : |flyToU1 projPlain projPlain stIdle.tr emptyOpts| < 1 / 1000000 := by
    rw [hu0, abs_zero]; norm_num
  have hsmall1 : |flyToU1 projPlain projPlain stIdle.tr oZoom1| < 1 / 1000000 := by
    rw [hu1, abs_zero]; norm_num
  have hw0 : flyToW0 stIdle.tr = 100 := by
    simp [flyToW0, stIdle, trA]
  have hw1 : flyToW1 stIdle.tr oZoom1 = 50 := by
    unfold flyToW1 zoomScale flyToW0
    simp only [oZoom1, emptyOpts, stIdle, trA]
    norm_num
  have hnw : ¬|flyToW0 stIdle.tr - flyToW1 stIdle.tr oZoom1| < 1 / 1000000 := by
    rw [hw0, hw1]
    rw [show |(100 : ℝ) - 50| = 50 from by rw [abs_of_nonneg] <;> norm_num]
    norm_num
  exact ⟨⟨hsmall0,
          (claim_flyto_degeneration projPlain projPlain stIdle emptyOpts 0
            hsmall0).1 rfl⟩,
         ⟨hnw,
          (claim_flyto_degeneration projPlain projPlain stIdle oZoom1 0
            hsmall1).2 hnw⟩⟩

/-- No `zoomstart` event ever comes out of a `stop` call (stop can only fire
end events). -/
theorem stop_no_zoomstart (st : CameraState) (n : ℕ) :
    Event.mk .zoomstart n ∉ (stop st).2 := by
  obtain ⟨tr, m, z, r, p, session, pe⟩ := st
  cases session with
  | none => simp [stop]
  | some s =>
      obtain ⟨fd, de, du, ea, pa⟩ := s
      cases de <;> simp [stop, easeToEnd, easeToEndEvents]

/-- C10: every flyTo call that does not fall back to easeTo marks the session
as zooming unconditionally, fires `zoomstart` at start, fires `zoom` on every
frame and `zoomend` at completion — even when the target zoom equals the
start zoom — whereas easeTo with a supplied zoom equal to the start zoom does
not zoom and fires no `zoomstart`. -/
theorem claim_flyto_always_zooming (proj pointLoc : ℝ × ℝ → ℝ × ℝ)
    (st : CameraState) (o : CamOptions) (ed : ℕ)
    (st2 : CameraState) (o2 : CamOptions) (ed2 : ℕ)
    (hnd : ¬(|flyToU1 proj pointLoc st.tr o| < 1 / 1000000 ∧
             |flyToW0 st.tr - flyToW1 st.tr o| < 1 / 1000000))
    (hz2 : o2.zoom = some st2.tr.zoom) :
    (flyTo proj pointLoc st o ed).1.zooming = true ∧
    Event.mk .zoomstart ed ∈ (flyTo proj pointLoc st o ed).2 ∧
    Event.mk .zoom ed ∈ fireMoveEvents (flyTo proj pointLoc st o ed).1 ed ∧
    Event.mk .zoomend ed ∈ (easeToEnd (flyTo proj pointLoc st o ed).1 ed).2 ∧
    (easeTo st2 o2 ed2).1.zooming = false ∧
    Event.mk .zoomstart ed2 ∉ (easeTo st2 o2 ed2).2 := by
  have htr := stop_tr st
  have htr2 := stop_tr st2
  have hfly : (flyTo proj pointLoc st o ed).1.zooming = true ∧
      Event.mk .zoomstart ed ∈ (flyTo proj pointLoc st o ed).2 ∧
      Event.mk .zoom ed ∈ fireMoveEvents (flyTo proj pointLoc st o ed).1 ed ∧
      Event.mk .zoomend ed ∈ (easeToEnd (flyTo proj pointLoc st o ed).1 ed).2 := by
    by_cases h1 : |flyToU1 proj pointLoc st.tr o| < 1 / 1000000
    · by_cases h2 : |flyToW0 st.tr - flyToW1 st.tr o| < 1 / 1000000
      · exact absurd ⟨h1, h2⟩ hnd
      · simp only [flyTo, htr]
        rw [if_pos h1, if_neg h2]
        refine ⟨by simp [prepareEase], ?_, ?_, ?_⟩ <;>
          simp [prepareEase, fireMoveEvents, easeToEnd, easeToEndEvents,
                List.mem_append]
    · simp only [flyTo, htr]
      rw [if_neg h1]
      refine ⟨by simp [prepareEase], ?_, ?_, ?_⟩ <;>
        simp [prepareEase, fireMoveEvents, easeToEnd, easeToEndEvents,
              List.mem_append]
  have hzoomflag : (easeTo st2 o2 ed2).1.zooming = false := by
    simp [easeTo, easeToPost, prepareEase, htr2, hz2]
  refine ⟨hfly.1, hfly.2.1, hfly.2.2.1, hfly.2.2.2, hzoomflag, ?_⟩
  intro hmem
  rw [show easeTo st2 o2 ed2 =
        ((easeToPost (stop st2).1 o2 ed2).1,
         (stop st2).2 ++ (easeToPost (stop st2).1 o2 ed2).2) from rfl] at hmem
  rcases List.mem_append.mp hmem with h | h
  · exact stop_no_zoomstart st2 ed2 h
  · simp only [easeToPost, prepareEase, htr2, hz2] at h
    split_ifs at h <;> simp_all

/-- Options `{center: (3,4), zoom: 0}`: a genuine pan whose target zoom equals
the start zoom of `stIdle`. -/
def oC10 : CamOptions := { emptyOpts with center := some (3, 4), zoom := some 0 }

/-- Options `{zoom: 0}`: an easeTo whose supplied zoom equals the start zoom. -/
def oZoomSame : CamOptions := { emptyOpts with zoom := some 0 }

/-- Concrete instance of the always-zooming claim: a flyTo pan of 5 pixels
with unchanged zoom still zooms (and fires zoom events), while the easeTo with
the same unchanged zoom does not. -/
theorem claim_flyto_always_zooming_witness :
    oC10.zoom = some stIdle.tr.zoom ∧
    ((flyTo projPlain locZero stIdle oC10 2).1.zooming = true ∧
     Event.mk .zoomstart 2 ∈ (flyTo projPlain locZero stIdle oC10 2).2 ∧
     Event.mk .zoom 2 ∈
       fireMoveEvents (flyTo projPlain locZero stIdle oC10 2).1 2 ∧
     Event.mk .zoomend 2 ∈
       (easeToEnd (flyTo projPlain locZero stIdle oC10 2).1 2).2 ∧
     (easeTo stIdle oZoomSame 3).1.zooming = false ∧
     Event.mk .zoomstart 3 ∉ (easeTo stIdle oZoomSame 3).2) := by
  have hU : flyToU1 projPlain locZero stIdle.tr oC10 = 5 := by
    unfold flyToU1 flyToDelta targetCenterOf locationAtOffsetOf pointAtOffsetOf
    simp [normalizeCenter, centerPoint, stIdle, trA, oC10, emptyOpts,
          projPlain, locZero]
    rw [show (3 : ℝ) ^ 2 + 4 ^ 2 = 5 ^ 2 by norm_num,
        Real.sqrt_sq (by norm_num : (0:ℝ) ≤ 5)]
  have hnd : ¬(|flyToU1 projPlain locZero stIdle.tr oC10| < 1 / 1000000 ∧
               |flyToW0 stIdle.tr - flyToW1 stIdle.tr oC10| < 1 / 1000000) := by
    intro h
    obtain ⟨ha, -⟩ := h
    rw [hU, show |(5:ℝ)| = 5 from abs_of_nonneg (by norm_num)] at ha
    norm_num at ha
  exact ⟨rfl, claim_flyto_always_zooming projPlain locZero stIdle oC10 2
               stIdle oZoomSame 3 hnd rfl⟩

/-! ### C9: monotonicity of the flyTo visible-span curve -/

/-- Options for the C9 counterexample flight: pan 2 pixels, zoom in by one
level, curve ρ = 1. -/
def oC9 : CamOptions :=
  { emptyOpts with center := some (2, 0), zoom := some 0, curve := some 1 }

/-- An idle camera on a 1×1 viewport at zoom 1. -/
def stC9 : CameraState :=
  ⟨⟨1, 1, (0, 0), 1, 0, 0, 0, 22, false, false⟩, false, false, false, false,
   none, none⟩

/-- r₀ of the C9 counterexample flight (w0 = 1, w1 = 2, u1 = 2, ρ = 1). -/
noncomputable def hypR0 : ℝ := rFun 1 2 2 1 false

/-- S of the C9 counterexample flight. -/
noncomputable def hypS : ℝ := (rFun 1 2 2 1 true - rFun 1 2 2 1 false) / 1

theorem sqrt64_eq : Real.sqrt 64 = 8 := by
  rw [show (64:ℝ) = 8 ^ 2 by norm_num, Real.sqrt_sq (by norm_num : (0:ℝ) ≤ 8)]

theorem sqrt65_gt_8 : (8:ℝ) < Real.sqrt 65 := by
  calc (8:ℝ) = Real.sqrt 64 := sqrt64_eq.symm
    _ < Real.sqrt 65 := Real.sqrt_lt_sqrt (by norm_num) (by norm_num)

theorem sqrt65_lt_9 : Real.sqrt 65 < 9 := by
  have h81 : Real.sqrt 81 = 9 := by
    rw [show (81:ℝ) = 9 ^ 2 by norm_num, Real.sqrt_sq (by norm_num : (0:ℝ) ≤ 9)]
  calc Real.sqrt 65 < Real.sqrt 81 :=
        Real.sqrt_lt_sqrt (by norm_num) (by norm_num)
    _ = 9 := h81

theorem sq_sqrt65 : Real.sqrt 65 ^ 2 = 65 := Real.sq_sqrt (by norm_num)

theorem hypR0_eq : hypR0 = Real.log ((Real.sqrt 65 - 7) / 4) := by
  unfold hypR0 rFun
  norm_num
  rw [show Real.sqrt 16 = 4 from by
        rw [show (16:ℝ) = 4 ^ 2 by norm_num,
            Real.sqrt_sq (by norm_num : (0:ℝ) ≤ 4)]]
  congr 1
  ring

theorem hypR1_eq : rFun 1 2 2 1 true = Real.log ((Real.sqrt 65 + 1) / 8) := by
  unfold rFun
  norm_num
  rw [sqrt64_eq]
  congr 1
  ring

theorem hypR0_neg : hypR0 < 0 := by
  rw [hypR0_eq]
  apply Real.log_neg
  · nlinarith [sqrt65_gt_8]
  · nlinarith [sqrt65_lt_9]

theorem hypR1_pos : 0 < rFun 1 2 2 1 true := by
  rw [hypR1_eq]
  apply Real.log_pos
  nlinarith [sqrt65_gt_8]

theorem cosh_hypR0 : Real.cosh hypR0 = Real.sqrt 65 / 4 := by
  rw [hypR0_eq, Real.cosh_log (by nlinarith [sqrt65_gt_8])]
  have hinv : ((Real.sqrt 65 - 7) / 4)⁻¹ = (Real.sqrt 65 + 7) / 4 := by
    apply inv_eq_of_mul_eq_one_right
    rw [div_mul_div_comm,
        show (Real.sqrt 65 - 7) * (Real.sqrt 65 + 7) = Real.sqrt 65 ^ 2 - 49
          from by ring, sq_sqrt65]
    norm_num
  rw [hinv]
  ring

theorem cosh_hypR1 : Real.cosh (rFun 1 2 2 1 true) = Real.sqrt 65 / 8 := by
  rw [hypR1_eq, Real.cosh_log (by nlinarith [sqrt65_gt_8])]
  have hinv : ((Real.sqrt 65 + 1) / 8)⁻¹ = (Real.sqrt 65 - 1) / 8 := by
    apply inv_eq_of_mul_eq_one_right
    rw [div_mul_div_comm,
        show (Real.sqrt 65 + 1) * (Real.sqrt 65 - 1) = Real.sqrt 65 ^ 2 - 1
          from by ring, sq_sqrt65]
    norm_num
  rw [hinv]
  ring

theorem wHyp_at_zero : wHyp hypR0 1 0 = 1 := by
  unfold wHyp
  rw [mul_zero, add_zero, div_self (ne_of_gt (Real.cosh_pos hypR0))]

theorem wHyp_at_peak : wHyp hypR0 1 (-hypR0) = Real.sqrt 65 / 4 := by
  unfold wHyp
  rw [one_mul, add_neg_cancel, Real.cosh_zero, div_one, cosh_hypR0]

theorem wHyp_at_end : wHyp hypR0 1 hypS = 2 := by
  unfold wHyp hypS
  rw [one_mul, div_one, show hypR0 + (rFun 1 2 2 1 true - rFun 1 2 2 1 false) =
        rFun 1 2 2 1 true from by unfold hypR0; ring,
      cosh_hypR0, cosh_hypR1]
  have h0 : Real.sqrt 65 ≠ 0 := by nlinarith [sqrt65_gt_8]
  field_simp
  ring

/-- C9 counterexample: the concrete flight `stC9 → flyTo {center:(2,0),
zoom:0, curve:1}` has `startZoom = 1 ≠ 0 = targetZoom` and takes the
hyperbolic path with r₀ = `hypR0` < 0, ρ = 1, S = `hypS`; its visible-span
function rises from w(0) = 1 to w(-r₀) = √65/4 > 2 and falls back to
w(S) = 2, so it is neither monotone nor antitone on [0, S]. -/
theorem claim_flyto_monotonic_span_cex :
    oC9.zoom.getD stC9.tr.zoom ≠ stC9.tr.zoom ∧
    pathOf (flyTo projPlain locZero stC9 oC9 0).1 =
      some (.hyperbolic hypR0 1 hypS) ∧
    ¬(MonotoneOn (wHyp hypR0 1) (Set.Icc 0 hypS) ∨
      AntitoneOn (wHyp hypR0 1) (Set.Icc 0 hypS)) := by
  have hstop : stop stC9 = (stC9, []) := stop_of_none _ rfl
  have hW0 : flyToW0 stC9.tr = 1 := by simp [flyToW0, stC9]
  have hW1 : flyToW1 stC9.tr oC9 = 2 := by
    unfold flyToW1 zoomScale flyToW0
    simp only [oC9, emptyOpts, stC9]
    norm_num
  have hU1 : flyToU1 projPlain locZero stC9.tr oC9 = 2 := by
    unfold flyToU1 flyToDelta targetCenterOf locationAtOffsetOf pointAtOffsetOf
    simp [normalizeCenter, centerPoint, stC9, oC9, emptyOpts, projPlain,
          locZero]
  have hRho : flyToRho projPlain locZero stC9.tr oC9 = 1 := by
    unfold flyToRho
    simp [oC9, emptyOpts]
  refine ⟨by simp [oC9, emptyOpts, stC9], ?_, ?_⟩
  · simp only [flyTo, hstop]
    rw [hU1, hW0, hW1, hRho]
    rw [if_neg (by norm_num : ¬|(2:ℝ)| < 1 / 1000000)]
    simp [pathOf, prepareEase, hypR0, hypS]
  · have hSeq : hypS = rFun 1 2 2 1 true - hypR0 := by
      unfold hypS hypR0
      exact div_one _
    have hpeak_mem : -hypR0 ∈ Set.Icc (0:ℝ) hypS := by
      rw [Set.mem_Icc, hSeq]
      exact ⟨by linarith [hypR0_neg], by linarith [hypR1_pos]⟩
    have hzero_mem : (0:ℝ) ∈ Set.Icc (0:ℝ) hypS := by
      rw [Set.mem_Icc, hSeq]
      exact ⟨le_refl _, by linarith [hypR1_pos, hypR0_neg]⟩
    have hend_mem : hypS ∈ Set.Icc (0:ℝ) hypS := by
      rw [Set.mem_Icc, hSeq]
      exact ⟨by linarith [hypR1_pos, hypR0_neg], le_refl _⟩
    rintro (hmono | hanti)
    · have h := hmono hpeak_mem hend_mem
        (by rw [hSeq]; linarith [hypR1_pos])
      rw [wHyp_at_peak, wHyp_at_end] at h
      nlinarith [sqrt65_gt_8]
    · have h := hanti hzero_mem hpeak_mem (by linarith [hypR0_neg])
      rw [wHyp_at_zero, wHyp_at_peak] at h
      nlinarith [sqrt65_gt_8]

/-- C9 amended: the spans claim holds on the degenerate branch: whenever a
flyTo session animates the pure exponential curve `w(s) = exp(k·ρ·s)` (the
`u1 ≈ 0` replacement path), that curve is monotone on [0, S] — while the
counterexample shows the hyperbolic curve of the general branch need not be,
even with `startZoom ≠ targetZoom`. -/
theorem claim_flyto_monotonic_span_amended (proj pointLoc : ℝ × ℝ → ℝ × ℝ)
    (st : CameraState) (o : CamOptions) (ed : ℕ) (k rho S : ℝ)
    (_hp : pathOf (flyTo proj pointLoc st o ed).1 =
            some (.exponential k rho S)) :
    MonotoneOn (wExp k rho) (Set.Icc 0 S) ∨
    AntitoneOn (wExp k rho) (Set.Icc 0 S) := by
  rcases le_total 0 (k * rho) with h | h
  · left
    intro a _ b _ hab
    unfold wExp
    rw [Real.exp_le_exp]
    exact mul_le_mul_of_nonneg_left hab h
  · right
    intro a _ b _ hab
    unfold wExp
    rw [Real.exp_le_exp]
    exact mul_le_mul_of_nonpos_left hab h

/-- Helper evaluation: the flight `stIdle → flyTo {zoom: 1}` (no pan, spans
100 → 50) takes the exponential path with k = -1, ρ = 1.42 (default curve)
and S = |log(50/100)|/1.42. -/
theorem flyTo_oZoom1_exponential (ed : ℕ) :
    pathOf (flyTo projPlain projPlain stIdle oZoom1 ed).1 =
      some (.exponential (-1) 1.42 (|Real.log ((50:ℝ) / 100)| / 1.42)) := by
  have hstop : stop stIdle = (stIdle, []) := stop_of_none _ rfl
  have hu1 : flyToU1 projPlain projPlain stIdle.tr oZoom1 = 0 :=
    flyToU1_center_none _ _ _ _ rfl rfl
  have hW0 : flyToW0 stIdle.tr = 100 := by simp [flyToW0, stIdle, trA]
  have hW1 : flyToW1 stIdle.tr oZoom1 = 50 := by
    unfold flyToW1 zoomScale flyToW0
    simp only [oZoom1, emptyOpts, stIdle, trA]
    norm_num
  have hRho : flyToRho projPlain projPlain stIdle.tr oZoom1 = 1.42 := by
    unfold flyToRho
    simp [oZoom1, emptyOpts]
  simp only [flyTo, hstop]
  rw [hu1, hW0, hW1, hRho]
  rw [if_pos (show |(0:ℝ)| < 1 / 1000000 from by rw [abs_zero]; norm_num)]
  rw [if_neg (show ¬|(100:ℝ) - 50| < 1 / 1000000 from by
        rw [show |(100:ℝ) - 50| = 50 from by rw [abs_of_nonneg] <;> norm_num]
        norm_num)]
  rw [if_pos (show (50:ℝ) < 100 from by norm_num)]
  simp [pathOf, prepareEase]

/-- Concrete instance of the amended monotone-span claim on the exponential
flight `stIdle → flyTo {zoom: 1}`. -/
theorem claim_flyto_monotonic_span_witness :
    pathOf (flyTo projPlain projPlain stIdle oZoom1 9).1 =
      some (.exponential (-1) 1.42 (|Real.log ((50:ℝ) / 100)| / 1.42)) ∧
    (MonotoneOn (wExp (-1) 1.42)
        (Set.Icc 0 (|Real.log ((50:ℝ) / 100)| / 1.42)) ∨
     AntitoneOn (wExp (-1) 1.42)
        (Set.Icc 0 (|Real.log ((50:ℝ) / 100)| / 1.42))) :=
  ⟨flyTo_oZoom1_exponential 9,
   claim_flyto_monotonic_span_amended projPlain projPlain stIdle oZoom1 9
     (-1) 1.42 (|Real.log ((50:ℝ) / 100)| / 1.42)
     (flyTo_oZoom1_exponential 9)⟩

/-! ### fitBounds (src/ui/camera.js lines 333-395) -/

/-- Lexicographic comparison of char lists, mirroring the JavaScript `<` on
strings that backs the padding-key sort comparator. -/
def charListLe : List Char → List Char → Bool
  | [], _ => true
  | _ :: _, [] => false
  | a :: as, b :: bs =>
      if a < b then true
      else if b < a then false
      else charListLe as bs

/-- String order for the key sort. -/
def strLe (a b : String) : Bool := charListLe a.data b.data

/-- Inserts a string into an already sorted list. -/
def insertStr (s : String) : List String → List String
  | [] => [s]
  | t :: ts => if strLe s t then s :: t :: ts else t :: insertStr s ts

/-- `Object.keys(...).sort(...)` (camera.js lines 355-359): sorts the key list
lexicographically (insertion sort). -/
def sortStrs : List String → List String
  | [] => []
  | s :: ss => insertStr s (sortStrs ss)

/-- The two warnings fitBounds can emit (their exact message texts live in
camera.js lines 360 and 384). -/
inductive WarnMsg
  | invalidPadding
  | cannotFit
  deriving DecidableEq, Repr

/-- Modelled from the spec: `util.warnOnce` (util/util.js is not in the
snapshot): each distinct message is emitted at most once; the state is the
set (here: list) of messages already emitted. -/
def warnOnce (seen : List WarnMsg) (m : WarnMsg) : List WarnMsg :=
  if m ∈ seen then seen else m :: seen

/-- Reads one side's padding value out of the padding object. -/
def lookupPad (l : List (String × ℝ)) (k : String) : ℝ :=
  ((l.find? (fun e => e.1 = k)).map Prod.snd).getD 0

/-- fitBounds's effective padding object (lines 335-354): the option defaults
to zero on all four sides, and a bare number is spread to all four sides. -/
def paddingObjOf (o : CamOptions) : List (String × ℝ) :=
  match o.padding.getD
      (.obj [("top", 0), ("bottom", 0), ("right", 0), ("left", 0)]) with
  | .num p => [("top", p), ("bottom", p), ("right", p), ("left", p)]
  | .obj l => l

/-- LngLatBounds.convert on a [sw, ne] pair (geo/lng_lat_bounds.js lines
23-32, 41-54): converts both corners through the LngLat constructor, which
can throw. -/
noncomputable def lngLatBoundsConvert (sw ne : JSNum × JSNum) :
    Except LngLatErr ((ℝ × ℝ) × (ℝ × ℝ)) := do
  let swv ← lngLatMake sw.1 sw.2
  let nev ← lngLatMake ne.1 ne.2
  .ok (swv, nev)

/-- `bounds.getNorthWest()` projected (line 377): (west, north). -/
noncomputable def fitNW (proj : ℝ × ℝ → ℝ × ℝ)
    (b : (ℝ × ℝ) × (ℝ × ℝ)) : ℝ × ℝ :=
  proj (b.1.1, b.2.2)

/-- `bounds.getSouthEast()` projected (line 378): (east, south). -/
noncomputable def fitSE (proj : ℝ × ℝ → ℝ × ℝ)
    (b : (ℝ × ℝ) × (ℝ × ℝ)) : ℝ × ℝ :=
  proj (b.2.1, b.1.2)

/-- fitBounds's updated `options.offset` (lines 370-373): the caller's offset
plus the padding offset `[left - right, top - bottom]`; this is both what the
scales use and what is passed down to easeTo/flyTo. -/
noncomputable def fitOffset (o : CamOptions) : ℝ × ℝ :=
  let pobj := paddingObjOf o
  ((o.offset.getD (0, 0)).1 +
     (lookupPad pobj "left" - lookupPad pobj "right"),
   (o.offset.getD (0, 0)).2 +
     (lookupPad pobj "top" - lookupPad pobj "bottom"))

/-- fitBounds's `scaleX` (lines 370-380): free horizontal viewport pixels
after lateral padding and offset, divided by the bounds' projected width. -/
noncomputable def fitScaleX (proj : ℝ × ℝ → ℝ × ℝ) (st : CameraState)
    (o : CamOptions) (b : (ℝ × ℝ) × (ℝ × ℝ)) : ℝ :=
  let pobj := paddingObjOf o
  (st.tr.width - min (lookupPad pobj "right") (lookupPad pobj "left") * 2 -
     |(fitOffset o).1| * 2) /
    ((fitSE proj b).1 - (fitNW proj b).1)

/-- fitBounds's `scaleY` (lines 370-381). -/
noncomputable def fitScaleY (proj : ℝ × ℝ → ℝ × ℝ) (st : CameraState)
    (o : CamOptions) (b : (ℝ × ℝ) × (ℝ × ℝ)) : ℝ :=
  let pobj := paddingObjOf o
  (st.tr.height - min (lookupPad pobj "top") (lookupPad pobj "bottom") * 2 -
     |(fitOffset o).2| * 2) /
    ((fitSE proj b).2 - (fitNW proj b).2)

/-- Camera#fitBounds (lines 333-395).  Validates the padding option (warning
once and returning with no effect if its keys are wrong), converts the
bounds (the only step that can throw), computes the scales (warning once and
returning with no effect when the bounds cannot fit), and otherwise
delegates to easeTo (`linear`) or flyTo with the computed center/zoom and
bearing 0.  `tr.scale` is `zoomScale(tr.zoom)` (modelled from the spec;
geo/transform.js is not in the snapshot). -/
noncomputable def fitBounds (proj pointLoc : ℝ × ℝ → ℝ × ℝ)
    (st : CameraState) (bounds : (JSNum × JSNum) × (JSNum × JSNum))
    (o : CamOptions) (ed : ℕ) (seen : List WarnMsg) :
    Except LngLatErr (CameraState × List Event × List WarnMsg) :=
  if sortStrs ((paddingObjOf o).map Prod.fst) ≠
      ["bottom", "left", "right", "top"] then
    .ok (st, [], warnOnce seen .invalidPadding)
  else
    match lngLatBoundsConvert bounds.1 bounds.2 with
    | .error e => .error e
    | .ok b =>
    if fitScaleY proj st o b < 0 ∨ fitScaleX proj st o b < 0 then
      .ok (st, [], warnOnce seen .cannotFit)
    else
      let nw := fitNW proj b
      let se := fitSE proj b
      let center := pointLoc ((nw.1 + se.1) / 2, (nw.2 + se.2) / 2)
      let zoom := min
        (scaleZoom (zoomScale st.tr.zoom *
          min (fitScaleX proj st o b) (fitScaleY proj st o b)))
        (o.maxZoom.getD st.tr.maxZoom)
      let o2 := { o with center := some center, zoom := some zoom,
                         bearing := some 0, offset := some (fitOffset o) }
      let r := if o.linear then easeTo st o2 ed else flyTo proj pointLoc st o2 ed
      .ok (r.1, r.2, seen)

/-- Every message handed to warnOnce ends up in its log. -/
theorem warnOnce_mem (seen : List WarnMsg) (m : WarnMsg) :
    m ∈ warnOnce seen m := by
  unfold warnOnce
  split_ifs with h
  · exact h
  · exact List.mem_cons_self m seen

/-- warnOnce is deduplicating: a message already in the log adds nothing. -/
theorem warnOnce_dedup (seen : List WarnMsg) (m : WarnMsg) (h : m ∈ seen) :
    warnOnce seen m = seen := if_pos h

/-- C6: fitBounds is non-fatal on bad inputs.  With a padding object whose
keys are not exactly bottom/left/right/top it returns `.ok` (never throws —
even before the bounds are validated) leaving the camera untouched, firing no
events, and recording the padding warning once; with valid padding but bounds
that cannot fit (a negative computed scale) it does the same with the
cannot-fit warning; repeating either call does not duplicate the warning. -/
theorem claim_fitbounds_nonfatal (proj pointLoc : ℝ × ℝ → ℝ × ℝ)
    (st : CameraState) (bounds : (JSNum × JSNum) × (JSNum × JSNum))
    (o : CamOptions) (ed : ℕ) (seen : List WarnMsg) :
    (∀ l, o.padding = some (.obj l) →
       sortStrs (l.map Prod.fst) ≠ ["bottom", "left", "right", "top"] →
       fitBounds proj pointLoc st bounds o ed seen =
         .ok (st, [], warnOnce seen .invalidPadding) ∧
       fitBounds proj pointLoc st bounds o ed (warnOnce seen .invalidPadding) =
         .ok (st, [], warnOnce seen .invalidPadding)) ∧
    (∀ b, sortStrs ((paddingObjOf o).map Prod.fst) =
            ["bottom", "left", "right", "top"] →
       lngLatBoundsConvert bounds.1 bounds.2 = .ok b →
       fitScaleY proj st o b < 0 ∨ fitScaleX proj st o b < 0 →
       fitBounds proj pointLoc st bounds o ed seen =
         .ok (st, [], warnOnce seen .cannotFit) ∧
       fitBounds proj pointLoc st bounds o ed (warnOnce seen .cannotFit) =
         .ok (st, [], warnOnce seen .cannotFit)) ∧
    WarnMsg.invalidPadding ∈ warnOnce seen .invalidPadding ∧
    WarnMsg.cannotFit ∈ warnOnce seen .cannotFit := by
  refine ⟨?_, ?_, warnOnce_mem seen _, warnOnce_mem seen _⟩
  · intro l hpad hbad
    have hpo : paddingObjOf o = l := by
      simp [paddingObjOf, hpad]
    constructor
    · unfold fitBounds
      rw [hpo, if_pos hbad]
    · unfold fitBounds
      rw [hpo, if_pos hbad,
          warnOnce_dedup _ _ (warnOnce_mem seen .invalidPadding)]
  · intro b hok hconv hneg
    constructor
    · unfold fitBounds
      rw [if_neg (not_ne_iff.mpr hok)]
      simp only [hconv]
      rw [if_pos hneg]
    · unfold fitBounds
      rw [if_neg (not_ne_iff.mpr hok)]
      simp only [hconv]
      rw [if_pos hneg, warnOnce_dedup _ _ (warnOnce_mem seen .cannotFit)]

/-- Options with a padding object missing three of the four required keys. -/
def oPadBad : CamOptions :=
  { emptyOpts with padding := some (.obj [("top", 5)]) }

/-- A degenerate south-west/north-east bounds pair used with the identity
projection so the projected bounds height is negative. -/
def boundsW : (JSNum × JSNum) × (JSNum × JSNum) :=
  ((some 0, some 0), (some 10, some 10))

/-- Concrete instances of the fitBounds claim: a padding object `{top: 5}`
warns and returns unchanged even with these bounds unvalidated, and with the
default padding the same bounds produce a negative scale, warn and return
unchanged. -/
theorem claim_fitbounds_nonfatal_witness :
    (oPadBad.padding = some (.obj [("top", (5:ℝ))]) ∧
     sortStrs ([("top", (5:ℝ))].map Prod.fst) ≠
       ["bottom", "left", "right", "top"] ∧
     fitBounds projPlain projPlain stIdle boundsW oPadBad 0 [] =
       .ok (stIdle, [], warnOnce [] .invalidPadding)) ∧
    (sortStrs ((paddingObjOf emptyOpts).map Prod.fst) =
       ["bottom", "left", "right", "top"] ∧
     lngLatBoundsConvert boundsW.1 boundsW.2 = .ok ((0, 0), (10, 10)) ∧
     (fitScaleY projPlain stIdle emptyOpts ((0, 0), (10, 10)) < 0 ∨
      fitScaleX projPlain stIdle emptyOpts ((0, 0), (10, 10)) < 0) ∧
     fitBounds projPlain projPlain stIdle boundsW emptyOpts 0 [] =
       .ok (stIdle, [], warnOnce [] .cannotFit)) := by
  have hbad : sortStrs ([("top", (5:ℝ))].map Prod.fst) ≠
      ["bottom", "left", "right", "top"] := by decide
  have hok : sortStrs ((paddingObjOf emptyOpts).map Prod.fst) =
      ["bottom", "left", "right", "top"] := by decide
  have hconv : lngLatBoundsConvert boundsW.1 boundsW.2 =
      .ok ((0, 0), (10, 10)) := by
    unfold lngLatBoundsConvert lngLatMake boundsW
    norm_num [Except.bind, bind]
  have hneg : fitScaleY projPlain stIdle emptyOpts ((0, 0), (10, 10)) < 0 ∨
      fitScaleX projPlain stIdle emptyOpts ((0, 0), (10, 10)) < 0 := by
    left
    unfold fitScaleY fitSE fitNW fitOffset lookupPad paddingObjOf
    norm_num [stIdle, trA, emptyOpts, projPlain, List.find?,
              show decide (("top" : String) = "bottom") = false from rfl,
              show decide (("bottom" : String) = "bottom") = true from rfl,
              show decide (("top" : String) = "top") = true from rfl]
  refine ⟨⟨rfl, hbad, ?_⟩, hok, hconv, hneg, ?_⟩
  · exact ((claim_fitbounds_nonfatal projPlain projPlain stIdle boundsW
      oPadBad 0 []).1 [("top", (5:ℝ))] rfl hbad).1
  · exact ((claim_fitbounds_nonfatal projPlain projPlain stIdle boundsW
      emptyOpts 0 []).2.1 ((0, 0), (10, 10)) hok hconv hneg).1

end MapboxGL
